import Mathlib

/-!
Verification of the phytodrift repository's core numerics against its
natural-language specification.

The embedding below translates the Python sources into Lean:

* `src/opendrift/models/pelagicegg2.py` — the `PelagicEggDrift` model:
  profile sampling (lines 90-109), the dual-regime terminal-velocity
  engine (lines 111-127), and the syntactically broken `logistic_growth`
  body (line 144).
* `src/opendrift/phyt_growth.py` and `src/unnamed/part_000` — the
  multi-nutrient phytoplankton growth functions.
* `src/opendrift/idealized_irradiance.py` — the idealized surface-flux
  model.

Modelling conventions: Python floats are embedded as exact numbers
(`ℚ` where the computation is rational so that concrete instances can be
decided, `ℝ` where `exp`, `sin` or fractional powers appear).  A NaN
produced by numpy (division by zero feeding a fractional power, a
fractional power of a negative base, or a NaN input) is modelled as
`none` in an `Option`-valued result; plain real results are `some`.
The external seawater-density collaborator of §6 of the spec is a
function parameter `ρ : ℚ → ℚ → ℚ`.
-/

namespace Phyto

/-! ## ProfileSampler (pelagicegg2.py, lines 90-109) -/

/-- Model of `np.floor(zi).astype(np.uint8)` applied to the already
floored integer: conversion of a nonnegative float integer to `uint8`
truncates and wraps modulo 256 (`np.float64(256.).astype(np.uint8) = 0`).
For a negative argument the C float-to-unsigned conversion is undefined
behaviour; we pick `Int.toNat` (clamp at 0), a corner no in-range `zi`
reaches because the interpolant's values are the indices `0..n-1`. -/
def uint8_cast (m : ℤ) : ℕ := m.toNat % 256

/-- Line 96: `upper = np.maximum(np.floor(zi).astype(np.uint8), 0)`. -/
def upper (zi : ℚ) : ℕ := max (uint8_cast ⌊zi⌋) 0

/-- Line 97: `lower = np.minimum(upper+1, Tprofiles.shape[0]-1)` where
`upper+1` is `uint8` arithmetic and therefore wraps modulo 256, and `n`
is the number of profile levels. -/
def lower (n u : ℕ) : ℕ := min ((u + 1) % 256) (n - 1)

/-- Line 98: `weight_upper = 1 - (zi - upper)`.  The code applies no
clamping to this weight. -/
def weight_upper (zi : ℚ) : ℚ := 1 - (zi - (upper zi : ℚ))

/-- Lines 103-104 (and identically 108-109): the per-particle sampled
profile value `Tprofiles[upper, i]*weight_upper +
Tprofiles[lower, i]*(1-weight_upper)`.  `vals k` is the profile value of
level `k` for the particle at hand and `n` the number of levels. -/
def sample_value (vals : ℕ → ℚ) (n : ℕ) (zi : ℚ) : ℚ :=
  vals (upper zi) * weight_upper zi + vals (lower n (upper zi)) * (1 - weight_upper zi)

/-- Model of `scipy.interpolate.interp1d(xs, range(len(xs)), bounds_error=False)`
evaluated at `x` (lines 93-95): piecewise-linear interpolation of the
fractional level index over the strictly increasing coordinates `xs`,
with the scipy default `fill_value = nan` outside the coordinate range,
modelled as `none`.  `j` is the index of the first coordinate. -/
def z_index_aux : ℕ → List ℚ → ℚ → Option ℚ
  | _, [], _ => none
  | j, [a], x => if x = a then some (j : ℚ) else none
  | j, a :: b :: rest, x =>
    if x < a then none
    else if x ≤ b then some ((j : ℚ) + (x - a) / (b - a))
    else z_index_aux (j + 1) (b :: rest) x

/-- Line 93-94: the depth-to-fractional-level interpolant `z_index`. -/
def z_index (xs : List ℚ) (x : ℚ) : Option ℚ := z_index_aux 0 xs x

/-- Last element of the profile coordinate list `a :: l` (the deepest
level's coordinate, coordinates being the negated profile depths). -/
def lastLevel (a : ℚ) (l : List ℚ) : ℚ := l.getLastD a

/-- Lines 95-109 for one particle: `zi = z_index(-z)` followed by the
index/weight computation and the weighted sample.  `xs` are the negated
profile depth coordinates (`-environment_profiles['z']`, increasing),
`z` the particle depth (nonpositive).  A NaN `zi` propagates to a NaN
sampled value (`nan` times any float is `nan` in lines 103-104), hence
the `Option.map`. -/
def sample_profile (xs : List ℚ) (vals : ℕ → ℚ) (n : ℕ) (z : ℚ) : Option ℚ :=
  (z_index xs (-z)).map (fun zi => sample_value vals n zi)

/-! ## TerminalVelocityEngine (pelagicegg2.py, lines 111-127) -/

/-- Line 115: low-Reynolds dynamic viscosity
`my_w = 0.001*(1.7915 - 0.0538*T0 + 0.007*T0*T0 - 0.0023*S0)`. -/
def my_w_low (T S : ℚ) : ℚ := 0.001 * (1.7915 - 0.0538 * T + 0.007 * T * T - 0.0023 * S)

/-- Line 116: low-Reynolds velocity
`W = (1.0/my_w)*(1.0/18.0)*g*(eggsize**2)*dr` with `g = 9.81`;
`dr = DENSw - DENSegg` is passed in as computed on line 113. -/
def W_low (T S d dr : ℚ) : ℚ := (1 / my_w_low T S) * (1 / 18) * 9.81 * d ^ 2 * dr

/-- Line 118: the high-Reynolds mask `W*1000*eggsize/my_w > 0.5`. -/
def highRe (T S d dr : ℚ) : Bool := decide (W_low T S d dr * 1000 * d / my_w_low T S > 0.5)

/-- Line 120: high-Reynolds viscosity `my_w = 0.01854*exp(-0.02783*T0)`
(the source reassigns the name `my_w`). -/
noncomputable def my_w_high (T : ℚ) : ℝ := 0.01854 * Real.exp (-0.02783 * (T : ℝ))

/-- Lines 121-122: equivalent spherical diameter
`d0 = (eggsize*100) - 0.4*(9.0*my_w**2/(100*g)*DENSw/dr)**(1.0/3.0)`. -/
noncomputable def d0 (T DENSw dr d : ℚ) : ℝ :=
  (d : ℝ) * 100 - 0.4 * (9 * my_w_high T ^ 2 / (100 * 9.81) * (DENSw : ℝ) / (dr : ℝ)) ^ ((1 : ℝ) / 3)

/-- Lines 123-124: the high-Reynolds velocity value
`W2 = 19.0*d0*(0.001*dr)**(2.0/3.0)*(my_w*0.001*DENSw)**(-1.0/3.0)`,
then `W2 = W2/100.`, on the domain where every float step is finite. -/
noncomputable def W2val (T DENSw dr d : ℚ) : ℝ :=
  19 * d0 T DENSw dr d * (0.001 * (dr : ℝ)) ^ ((2 : ℝ) / 3)
    * (my_w_high T * 0.001 * (DENSw : ℝ)) ^ (-((1 : ℝ) / 3)) / 100

/-- Lines 120-124 with numpy's NaN behaviour made explicit: for
`dr < 0` the bases of the fractional powers `(...)**(1/3)` and
`(0.001*dr)**(2/3)` are negative and numpy returns `nan`; for `dr = 0`
the division `DENSw/dr` gives `±inf` and `19*(∓inf)*(0)**(2/3)*... = nan`;
for `DENSw ≤ 0` (never produced by a physical density function) the cube
root's base is nonpositive as well.  All of these NaN outcomes are
modelled as `none`; on the remaining domain every step is an ordinary
real number. -/
noncomputable def W2 (T DENSw dr d : ℚ) : Option ℝ :=
  if 0 < dr ∧ 0 < DENSw then some (W2val T DENSw dr d) else none

/-- Lines 111-127 for one particle, parametrized by the external
seawater-density collaborator `ρ` (spec §6): densities and density
contrast (lines 111-113), low-Re estimate (115-116), Reynolds mask
(118), high-Re estimate (120-124) and the masked merge
`W[highRe] = W2[highRe]` (line 126).  The merged output for the particle
is the high-Re value exactly when the mask flags it. -/
noncomputable def terminal_velocity (ρ : ℚ → ℚ → ℚ) (d Segg T0 S0 : ℚ) : Option ℝ :=
  let DENSw := ρ T0 S0
  let DENSegg := ρ T0 Segg
  let dr := DENSw - DENSegg
  if highRe T0 S0 d dr then W2 T0 DENSw dr d
  else some ((W_low T0 S0 d dr : ℚ) : ℝ)

/-- The vectorized `update_terminal_velocity` over a particle batch:
every numpy operation in lines 111-127 is elementwise, so the batch
result is the per-particle map.  A particle is the tuple
`(diameter, neutral_buoyancy_salinity, T0, S0)`. -/
noncomputable def update_terminal_velocity (ρ : ℚ → ℚ → ℚ)
    (ps : List (ℚ × ℚ × ℚ × ℚ)) : List (Option ℝ) :=
  ps.map (fun p => terminal_velocity ρ p.1 p.2.1 p.2.2.1 p.2.2.2)

/-- One particle of lines 111-127 with possibly-NaN inputs (`none` = NaN).
A NaN diameter or salinity propagates through the polynomial density
function and lines 115-116 to `W = nan`; the mask comparison
`nan > 0.5` is `False` in numpy, so the particle keeps its NaN low-Re
value: the output is NaN, with no exception raised. -/
noncomputable def terminal_velocity_nan (ρ : ℚ → ℚ → ℚ) :
    Option ℚ × Option ℚ × Option ℚ × Option ℚ → Option ℝ
  | (some d, some Segg, some T0, some S0) => terminal_velocity ρ d Segg T0 S0
  | _ => none

/-- The vectorized `update_terminal_velocity` over a batch that may
contain NaN entries. -/
noncomputable def update_terminal_velocity_nan (ρ : ℚ → ℚ → ℚ)
    (ps : List (Option ℚ × Option ℚ × Option ℚ × Option ℚ)) : List (Option ℝ) :=
  ps.map (terminal_velocity_nan ρ)

/-- A concrete linear seawater-density stub (spec §8 suggests a linear
density model for test isolation), used for concrete instances. -/
def rho_linear (T S : ℚ) : ℚ := 1000 + 0.8 * S - 0.1 * T

/-! ## logistic_growth and module loadability (pelagicegg2.py, line 144) -/

/-- Characters Python allows inside an identifier (ASCII fragment). -/
def isPyIdentChar (c : Char) : Bool := c.isAlpha || c.isDigit || c = '_'

/-- Model of Python's identifier grammar (ASCII fragment):
`identifier ::= (letter | "_") (letter | digit | "_")*`. -/
def isPyIdentifier : List Char → Bool
  | [] => false
  | c :: cs => (c.isAlpha || c = '_') && cs.all isPyIdentChar

/-- Split a token list at every dot, keeping empty segments. -/
def splitDots : List Char → List (List Char)
  | [] => [[]]
  | c :: rest =>
    if c = '.' then [] :: splitDots rest
    else
      match splitDots rest with
      | [] => [[c]]
      | p :: ps => (c :: p) :: ps

/-- Model of Python's grammar for a dotted attribute-access expression,
`attributeref ::= primary "." identifier` with a name as primary: every
dot-separated segment must be a (nonempty) identifier.  In particular a
trailing dot leaves an empty final segment and the phrase is not an
expression. -/
def isDottedNameExpr (cs : List Char) : Bool :=
  !cs.isEmpty && (splitDots cs).all isPyIdentifier

/-- The right-hand side of line 144 of pelagicegg2.py, `N = self.elements.`
(the assignment's RHS as tokenized up to the newline; Python ends the
logical line at the newline since no bracket is open). -/
def line144_rhs : List Char := "self.elements.".toList

/-- Modelled from Python's import semantics: `import` compiles the whole
module, so the module object is created only if every statement is
syntactically valid.  Every other statement of pelagicegg2.py is
well-formed, so loadability reduces to line 144's RHS parsing as an
expression (a dotted attribute chain). -/
def pelagicegg2_loads : Bool := isDottedNameExpr line144_rhs

/-- An operation of `PelagicEggDrift` (`update`, `update_terminal_velocity`,
`logistic_growth`) is reachable through a normal import only if the
defining module loads. -/
def pelagicegg2_operations_reachable : Bool := pelagicegg2_loads

/-! ## Growth functions (phyt_growth.py and src/unnamed/part_000) -/

/-- The dictionary returned by `phyt_growth` (phyt_growth.py, lines 64-73). -/
structure PhytGrowthResult where
  dPdt : ℝ
  mu : ℝ
  mu_nut : ℝ
  lim_N : ℝ
  lim_Ph : ℝ
  lim_Fe : ℝ
  mu_I : ℝ
  mu_T : ℝ

/-- `phyt_growth` (src/opendrift/phyt_growth.py, lines 3-73): light
limitation `1 - exp(-alpha*I)`, per-nutrient Michaelis-Menten ratios,
Liebig minimum `min(lim_N, lim_Ph, lim_Fe)`, temperature factor
`Q10**((T - T_ref)/10)`, combined rate and net `dPdt`.  Python's
three-argument `min` is the left-nested binary minimum. -/
noncomputable def phyt_growth (P I N Ph Fe T mu_max alpha K_N K_Ph K_Fe Q10 T_ref mortality : ℝ) :
    PhytGrowthResult :=
  let mu_I := 1.0 - Real.exp (-alpha * I)
  let lim_N := N / (K_N + N)
  let lim_Ph := Ph / (K_Ph + Ph)
  let lim_Fe := Fe / (K_Fe + Fe)
  let mu_nut := min (min lim_N lim_Ph) lim_Fe
  let mu_T := Q10 ^ ((T - T_ref) / 10.0)
  let mu := mu_max * mu_I * mu_nut * mu_T
  ⟨(mu - mortality) * P, mu, mu_nut, lim_N, lim_Ph, lim_Fe, mu_I, mu_T⟩

/-- `phyto_growth_multinutrient` (src/unnamed/part_000, lines 4-65):
identical computation, returning the tuple
`(dPdt, mu, mu_nut, lim_N, lim_P, lim_Fe)`. -/
noncomputable def phyto_growth_multinutrient
    (P I N Pnut Fe T mu_max alpha K_N K_P K_Fe Q10 T_ref mortality : ℝ) :
    ℝ × ℝ × ℝ × ℝ × ℝ × ℝ :=
  let mu_I := 1.0 - Real.exp (-alpha * I)
  let lim_N := N / (K_N + N)
  let lim_P := Pnut / (K_P + Pnut)
  let lim_Fe := Fe / (K_Fe + Fe)
  let mu_nut := min (min lim_N lim_P) lim_Fe
  let mu_T := Q10 ^ ((T - T_ref) / 10.0)
  let mu := mu_max * mu_I * mu_nut * mu_T
  ((mu - mortality) * P, mu, mu_nut, lim_N, lim_P, lim_Fe)

/-! ## Idealized irradiance (idealized_irradiance.py) -/

/-- `time_of_day_hours` (idealized_irradiance.py, lines 8-16), float
branch: a float time of day is returned unchanged (the datetime branch
merely converts a datetime to this float and is outside the numeric
core). -/
def time_of_day_hours (t : ℝ) : ℝ := t

/-- `idealized_surface_flux` (idealized_irradiance.py, lines 22-46):
`phase = pi*t/daylength`, `flux = Fmax*np.maximum(0, np.sin(phase))`. -/
noncomputable def idealized_surface_flux (time daylength Fmax : ℝ) : ℝ :=
  let t := time_of_day_hours time
  let phase := Real.pi * t / daylength
  Fmax * max 0 (Real.sin phase)

/-! ## Concrete data for counterexamples -/

/-- A two-level profile column for one particle: level 0 holds 3,
level 1 (the deepest level) holds 5. -/
def c3vals : ℕ → ℚ := fun i => if i = 1 then 5 else 3

/-- A 257-level profile column for one particle: level 256 (the deepest)
holds 7, level 1 holds 1, every other level holds 0. -/
def c7vals : ℕ → ℚ := fun i => if i = 256 then 7 else if i = 1 then 1 else 0

/-- The default NEA Cod egg of `PelagicEgg.variables` in 10 °C, 34 psu
water: `(diameter, neutral_buoyancy_salinity, T0, S0)`. -/
def test_particle : ℚ × ℚ × ℚ × ℚ := (0.0014, 31.25, 10, 34)

/-- A one-particle batch. -/
def test_batch : List (ℚ × ℚ × ℚ × ℚ) := [test_particle]

/-- A particle whose diameter is NaN. -/
def test_particle_nan : Option ℚ × Option ℚ × Option ℚ × Option ℚ :=
  (none, some 31.25, some 10, some 34)

/-- A one-particle batch whose only particle has a NaN diameter. -/
def test_batch_nan : List (Option ℚ × Option ℚ × Option ℚ × Option ℚ) := [test_particle_nan]

end Phyto

namespace Phyto

/-! ## Helper lemmas for the profile interpolant -/

/-- The default value of `lastLevel` is irrelevant once the list is
nonempty. -/
theorem lastLevel_cons (a b : ℚ) (r : List ℚ) : lastLevel a (b :: r) = lastLevel b r := by
  cases r with
  | nil => rfl
  | cons c r2 => rfl

/-- In a strictly increasing coordinate list the head is at most the
last coordinate. -/
theorem chain_le_lastLevel (l : List ℚ) (a : ℚ) (h : List.Chain' (· < ·) (a :: l)) :
    a ≤ lastLevel a l := by
  induction l generalizing a with
  | nil => simp [lastLevel]
  | cons b r ih =>
    have hab : a < b := (List.chain'_cons.mp h).1
    have h2 : List.Chain' (· < ·) (b :: r) := (List.chain'_cons.mp h).2
    have hbr : b ≤ lastLevel b r := ih b h2
    rw [lastLevel_cons]
    exact le_of_lt (lt_of_lt_of_le hab hbr)

/-- The interpolant fills `none` (NaN) below the coordinate range. -/
theorem z_index_aux_below (l : List ℚ) (a : ℚ) (j : ℕ) (x : ℚ) (hx : x < a) :
    z_index_aux j (a :: l) x = none := by
  cases l with
  | nil => simp [z_index_aux, ne_of_lt hx]
  | cons b r => simp [z_index_aux, hx]

/-- The interpolant fills `none` (NaN) above the coordinate range. -/
theorem z_index_aux_above (l : List ℚ) : ∀ (a : ℚ) (j : ℕ) (x : ℚ),
    List.Chain' (· < ·) (a :: l) → lastLevel a l < x → z_index_aux j (a :: l) x = none := by
  induction l with
  | nil =>
    intro a j x _ hx
    simp only [lastLevel, List.getLastD] at hx
    simp [z_index_aux, ne_of_gt hx]
  | cons b r ih =>
    intro a j x hc hx
    obtain ⟨hab, hc2⟩ := List.chain'_cons.mp hc
    rw [lastLevel_cons] at hx
    have hbx : b < x := lt_of_le_of_lt (chain_le_lastLevel r b hc2) hx
    have hax : a < x := lt_trans hab hbx
    simp only [z_index_aux]
    rw [if_neg (not_lt.mpr (le_of_lt hax)), if_neg (not_le.mpr hbx)]
    exact ih b (j + 1) x hc2 hx

/-- Inside the coordinate range the interpolant always returns a value. -/
theorem z_index_aux_inrange (l : List ℚ) : ∀ (a : ℚ) (j : ℕ) (x : ℚ),
    List.Chain' (· < ·) (a :: l) → a ≤ x → x ≤ lastLevel a l →
    (z_index_aux j (a :: l) x).isSome = true := by
  induction l with
  | nil =>
    intro a j x _ h1 h2
    simp only [lastLevel, List.getLastD] at h2
    have hxa : x = a := le_antisymm h2 h1
    simp [z_index_aux, hxa]
  | cons b r ih =>
    intro a j x hc h1 h2
    obtain ⟨hab, hc2⟩ := List.chain'_cons.mp hc
    rw [lastLevel_cons] at h2
    simp only [z_index_aux]
    rw [if_neg (not_lt.mpr h1)]
    by_cases hxb : x ≤ b
    · rw [if_pos hxb]; rfl
    · rw [if_neg hxb]
      exact ih b (j + 1) x hc2 (le_of_not_le hxb) h2

/-! ## Claim theorems -/

/-- C5: the body of `logistic_growth` contains `N = self.elements.`
(line 144), whose right-hand side is not a valid Python expression (a
dotted attribute chain may not end in a dot), so the module fails to
load under a normal import and no operation of `PelagicEggDrift` —
`update`, `update_terminal_velocity`, `logistic_growth` — can run. -/
theorem c5_syntax_error_blocks_module :
    isDottedNameExpr line144_rhs = false ∧ pelagicegg2_loads = false ∧
    pelagicegg2_operations_reachable = false := by decide

/-- C10: `idealized_surface_flux t daylength Fmax` equals
`Fmax * max 0 (sin (pi * t / daylength))`; it is exactly 1000 at noon
with the default day length and maximal flux, exactly 0 at hours 0 and
24, and never negative for any hour. -/
theorem c10_surface_flux_sine :
    (∀ t dl F : ℝ, idealized_surface_flux t dl F = F * max 0 (Real.sin (Real.pi * t / dl))) ∧
    idealized_surface_flux 12 24 1000 = 1000 ∧
    idealized_surface_flux 0 24 1000 = 0 ∧
    idealized_surface_flux 24 24 1000 = 0 ∧
    (∀ t : ℝ, 0 ≤ idealized_surface_flux t 24 1000) := by
  refine ⟨fun t dl F => rfl, ?_, ?_, ?_, fun t => ?_⟩
  · have h : Real.pi * 12 / 24 = Real.pi / 2 := by ring
    simp only [idealized_surface_flux, time_of_day_hours, h, Real.sin_pi_div_two]
    rw [max_eq_right (by norm_num : (0 : ℝ) ≤ 1)]
    norm_num
  · simp only [idealized_surface_flux, time_of_day_hours, mul_zero, zero_div, Real.sin_zero,
      max_self]
  · have h : Real.pi * 24 / 24 = Real.pi := by ring
    simp only [idealized_surface_flux, time_of_day_hours, h, Real.sin_pi, max_self, mul_zero]
  · exact mul_nonneg (by norm_num) (le_max_left 0 _)

/-- C9: both growth functions compute the nutrient limitation factor as
the minimum of the three Michaelis-Menten ratios, and at
`N=1.2, K_N=0.5, P=0.05, K_P=0.03, Fe=0.002, K_Fe=0.001` the combined
factor is exactly `0.625`, the phosphate ratio. -/
theorem c9_liebig_minimum (N Ph Fe K_N K_Ph K_Fe : ℝ)
    (hN : 0 < K_N) (hPh : 0 < K_Ph) (hFe : 0 < K_Fe)
    (P I T mu_max alpha Q10 T_ref mortality : ℝ) :
    (phyt_growth P I N Ph Fe T mu_max alpha K_N K_Ph K_Fe Q10 T_ref mortality).mu_nut
      = min (min (N / (K_N + N)) (Ph / (K_Ph + Ph))) (Fe / (K_Fe + Fe)) ∧
    (phyto_growth_multinutrient P I N Ph Fe T mu_max alpha K_N K_Ph K_Fe Q10 T_ref
        mortality).2.2.1
      = min (min (N / (K_N + N)) (Ph / (K_Ph + Ph))) (Fe / (K_Fe + Fe)) ∧
    (phyt_growth 1 80 1.2 0.05 0.002 18 1.2 0.03 0.5 0.03 0.001 2 20 0.05).mu_nut = 0.625 ∧
    (phyto_growth_multinutrient 1 80 1.2 0.05 0.002 18 1.2 0.03 0.5 0.03 0.001 2 20
        0.05).2.2.1 = 0.625 ∧
    (0.625 : ℝ) = 0.05 / (0.03 + 0.05) := by
  refine ⟨rfl, rfl, ?_, ?_, by norm_num⟩
  · show min (min ((1.2 : ℝ) / (0.5 + 1.2)) (0.05 / (0.03 + 0.05)))
        ((0.002 : ℝ) / (0.001 + 0.002)) = 0.625
    rw [min_eq_right (by norm_num : (0.05 : ℝ) / (0.03 + 0.05) ≤ 1.2 / (0.5 + 1.2)),
      min_eq_left (by norm_num : (0.05 : ℝ) / (0.03 + 0.05) ≤ 0.002 / (0.001 + 0.002))]
    norm_num
  · show min (min ((1.2 : ℝ) / (0.5 + 1.2)) (0.05 / (0.03 + 0.05)))
        ((0.002 : ℝ) / (0.001 + 0.002)) = 0.625
    rw [min_eq_right (by norm_num : (0.05 : ℝ) / (0.03 + 0.05) ≤ 1.2 / (0.5 + 1.2)),
      min_eq_left (by norm_num : (0.05 : ℝ) / (0.03 + 0.05) ≤ 0.002 / (0.001 + 0.002))]
    norm_num

/-- Witness for C9 at the spec's concrete inputs. -/
theorem c9_liebig_minimum_witness :
    (0 : ℝ) < 0.5 ∧
    (phyt_growth 1 80 1.2 0.05 0.002 18 1.2 0.03 0.5 0.03 0.001 2 20 0.05).mu_nut
      = min (min ((1.2 : ℝ) / (0.5 + 1.2)) ((0.05 : ℝ) / (0.03 + 0.05)))
          ((0.002 : ℝ) / (0.001 + 0.002)) :=
  ⟨by norm_num,
    (c9_liebig_minimum 1.2 0.05 0.002 0.5 0.03 0.001 (by norm_num) (by norm_num)
      (by norm_num) 1 80 18 1.2 0.03 2 20 0.05).1⟩

end Phyto

namespace Phyto

/-- C3 (amended): the profile-sampling step does not clamp out-of-range
particle depths.  The interpolant `interp1d(..., bounds_error=False)`
fills NaN outside the coordinate range, and the NaN propagates through
the index/weight arithmetic into the sampled value, so a particle whose
negated depth lies outside the (strictly increasing, negated) profile
coordinates receives a NaN sampled value — not the nearest level's
value.  Depths inside the range always produce a sampled value and
never fail. -/
theorem c3_out_of_range_gives_nan (a : ℚ) (l : List ℚ) (vals : ℕ → ℚ) (n : ℕ) (z : ℚ)
    (hs : List.Chain' (· < ·) (a :: l)) :
    (-z < a → sample_profile (a :: l) vals n z = none) ∧
    (lastLevel a l < -z → sample_profile (a :: l) vals n z = none) ∧
    (a ≤ -z → -z ≤ lastLevel a l → (sample_profile (a :: l) vals n z).isSome = true) := by
  refine ⟨fun h => ?_, fun h => ?_, fun h1 h2 => ?_⟩
  · simp [sample_profile, z_index, z_index_aux_below l a 0 (-z) h]
  · simp [sample_profile, z_index, z_index_aux_above l a 0 (-z) hs h]
  · have h := z_index_aux_inrange l a 0 (-z) hs h1 h2
    simp only [sample_profile, z_index]
    obtain ⟨zi, hzi⟩ := Option.isSome_iff_exists.mp h
    rw [hzi]
    rfl

/-- Witness for C3 (amended): a two-level profile at negated depths 0
and 10, particle depth −5 (inside the range) samples successfully. -/
theorem c3_out_of_range_gives_nan_witness :
    List.Chain' (· < ·) ([0, 10] : List ℚ) ∧
    (sample_profile [0, 10] c3vals 2 (-5)).isSome = true :=
  ⟨by norm_num [List.chain'_cons],
    (c3_out_of_range_gives_nan 0 [10] c3vals 2 (-5)
      (by norm_num [List.chain'_cons])).2.2 (by norm_num) (by norm_num [lastLevel])⟩

/-- Counterexample to C3 as stated: the profile has levels at negated
depths 0 and 10 (deepest level index 1, value 5); the particle sits at
depth −20, beyond the deepest level.  The claim says the sampled value
clamps to the deepest level's value 5; the code produces NaN (`none`). -/
theorem c3_deep_particle_is_nan :
    sample_profile [0, 10] c3vals 2 (-20) = none ∧ c3vals 1 = 5 ∧
    sample_profile [0, 10] c3vals 2 (-20) ≠ some (c3vals 1) := by
  have h : sample_profile [0, 10] c3vals 2 (-20) = none := by
    norm_num [sample_profile, z_index, z_index_aux]
  exact ⟨h, rfl, by rw [h]; simp⟩

/-- C7 (amended): for a profile with at most 256 levels and an in-range
fractional position `zi`, the sampled value follows the claimed formulas:
`upper` is `floor zi` (the `max(·, 0)` and the `uint8` cast are inert
there), the weight `1 − (zi − upper)` lies in `[0, 1]` with no clamping
needed, the sampled value is the claimed convex combination with
`lower = min(upper+1, n−1)`, the lower-index formula itself holding
whenever `upper + 1` does not overflow `uint8`, and an integer `zi = k`
returns level `k`'s value with weight exactly 1. -/
theorem c7_in_range_interpolation (vals : ℕ → ℚ) (n : ℕ) (zi : ℚ)
    (hn1 : 1 ≤ n) (hn : n ≤ 256) (h0 : 0 ≤ zi) (hr : zi ≤ (n : ℚ) - 1) :
    upper zi = (⌊zi⌋).toNat ∧
    (0 < weight_upper zi ∧ weight_upper zi ≤ 1) ∧
    sample_value vals n zi
      = vals (⌊zi⌋).toNat * (1 - (zi - ((⌊zi⌋).toNat : ℚ)))
        + vals (min ((⌊zi⌋).toNat + 1) (n - 1)) * (zi - ((⌊zi⌋).toNat : ℚ)) ∧
    ((⌊zi⌋).toNat < 255 → lower n (upper zi) = min ((⌊zi⌋).toNat + 1) (n - 1)) ∧
    (∀ k : ℕ, zi = (k : ℚ) → weight_upper zi = 1 ∧ sample_value vals n zi = vals k) := by
  have hfl0 : 0 ≤ ⌊zi⌋ := Int.floor_nonneg.mpr h0
  have hcast : ((n : ℚ) - 1) = (((n : ℤ) - 1 : ℤ) : ℚ) := by push_cast; ring
  have hfl_le : ⌊zi⌋ ≤ (n : ℤ) - 1 := by
    have := Int.floor_le_floor hr
    rwa [hcast, Int.floor_intCast] at this
  have hm : ((⌊zi⌋).toNat : ℤ) = ⌊zi⌋ := Int.toNat_of_nonneg hfl0
  have hm255 : (⌊zi⌋).toNat ≤ 255 := by omega
  have hupper : upper zi = (⌊zi⌋).toNat := by
    simp [upper, uint8_cast, Nat.mod_eq_of_lt (show (⌊zi⌋).toNat < 256 by omega)]
  have hmq : (((⌊zi⌋).toNat : ℕ) : ℚ) = ((⌊zi⌋ : ℤ) : ℚ) := by exact_mod_cast congrArg Int.cast hm
  have hfrac0 : 0 ≤ zi - ((⌊zi⌋).toNat : ℚ) := by
    rw [hmq]; linarith [Int.floor_le zi]
  have hfrac1 : zi - ((⌊zi⌋).toNat : ℚ) < 1 := by
    rw [hmq]; linarith [Int.lt_floor_add_one zi]
  have hweight : weight_upper zi = 1 - (zi - ((⌊zi⌋).toNat : ℚ)) := by
    rw [weight_upper, hupper]
  refine ⟨hupper, ⟨by rw [hweight]; linarith, by rw [hweight]; linarith⟩, ?_, ?_, ?_⟩
  · rcases Nat.lt_or_ge (⌊zi⌋).toNat 255 with hlt | hge
    · have hlow : lower n ((⌊zi⌋).toNat) = min ((⌊zi⌋).toNat + 1) (n - 1) := by
        rw [lower, Nat.mod_eq_of_lt (by omega)]
      rw [sample_value, hupper, hweight, hlow]
      ring
    · have h255 : (⌊zi⌋).toNat = 255 := le_antisymm hm255 hge
      have hn256 : n = 256 := by omega
      have hf255 : ⌊zi⌋ = 255 := by omega
      have hle : ((255 : ℤ) : ℚ) ≤ zi := by rw [← hf255]; exact Int.floor_le zi
      have hge2 : zi ≤ (255 : ℚ) := by
        rw [hn256] at hr; push_cast at hr; linarith
      have hzi : zi = 255 := le_antisymm hge2 (by exact_mod_cast hle)
      have hfz : zi - ((⌊zi⌋).toNat : ℚ) = 0 := by rw [h255, hzi]; norm_num
      rw [sample_value, hupper, hweight, hfz]
      simp
  · intro hlt
    rw [hupper, lower, Nat.mod_eq_of_lt (by omega)]
  · intro k hk
    have hfk : ⌊zi⌋ = (k : ℤ) := by rw [hk]; exact_mod_cast Int.floor_natCast k
    have hkn : (⌊zi⌋).toNat = k := by omega
    have hw1 : weight_upper zi = 1 := by
      rw [hweight, hkn, hk]; ring
    refine ⟨hw1, ?_⟩
    rw [sample_value, hw1, hupper, hkn]
    ring

end Phyto

namespace Phyto

/-- Witness for C7 (amended) at `zi = 1/2` in a two-level profile. -/
theorem c7_in_range_interpolation_witness :
    (0 : ℚ) ≤ 1 / 2 ∧ upper (1 / 2) = (⌊(1 / 2 : ℚ)⌋).toNat :=
  ⟨by norm_num,
    (c7_in_range_interpolation (fun i => (i : ℚ)) 2 (1 / 2) (by norm_num) (by norm_num)
      (by norm_num) (by norm_num)).1⟩

/-- Counterexample to C7 as stated: with 257 profile levels the in-range
integer position `zi = 256` should, per the claim, give
`upper = max(floor 256, 0) = 256`, weight 1 and the sampled value
`c7vals 256 = 7`.  The `uint8` cast wraps instead: `upper = 0`, the
weight is `-255` (far outside `[0, 1]`, and the code has no clamp to
repair it), and the sampled value is `256`, not `7`. -/
theorem c7_uint8_wraparound :
    upper (256 : ℚ) = 0 ∧ upper (256 : ℚ) ≠ 256 ∧
    weight_upper (256 : ℚ) = -255 ∧
    sample_value c7vals 257 256 = 256 ∧ c7vals 256 = 7 ∧ (256 : ℚ) ≠ 7 := by
  have hu : upper (256 : ℚ) = 0 := by norm_num [upper, uint8_cast]; decide
  have hw : weight_upper (256 : ℚ) = -255 := by rw [weight_upper, hu]; norm_num
  refine ⟨hu, by rw [hu]; norm_num, hw, ?_, rfl, by norm_num⟩
  rw [sample_value, hu, hw]
  norm_num [lower, c7vals]

/-- C1: the merged output of `update_terminal_velocity` is the
element-wise select between the two regime results: a particle is
flagged exactly when `W_low * 1000 * diameter / my_w > 0.5` with the
low-Re step's `W_low` and `my_w`, the flagged particles receive the
high-Re value and the others keep `W_low`, and each output entry is a
function of that particle's own inputs alone. -/
theorem c1_regime_select (ρ : ℚ → ℚ → ℚ) (ps : List (ℚ × ℚ × ℚ × ℚ))
    (i : ℕ) (d Segg T0 S0 : ℚ) (h : ps[i]? = some (d, Segg, T0, S0)) :
    (update_terminal_velocity ρ ps).length = ps.length ∧
    (update_terminal_velocity ρ ps)[i]? =
      some (if W_low T0 S0 d (ρ T0 S0 - ρ T0 Segg) * 1000 * d / my_w_low T0 S0 > 0.5
            then W2 T0 (ρ T0 S0) (ρ T0 S0 - ρ T0 Segg) d
            else some ((W_low T0 S0 d (ρ T0 S0 - ρ T0 Segg) : ℚ) : ℝ)) ∧
    (highRe T0 S0 d (ρ T0 S0 - ρ T0 Segg) = true ↔
      W_low T0 S0 d (ρ T0 S0 - ρ T0 Segg) * 1000 * d / my_w_low T0 S0 > 0.5) := by
  refine ⟨by simp [update_terminal_velocity], ?_, by simp [highRe]⟩
  rw [update_terminal_velocity, List.getElem?_map, h]
  simp only [Option.map_some', terminal_velocity, highRe, decide_eq_true_eq]

/-- Witness for C1 on a one-particle batch with a linear density stub. -/
theorem c1_regime_select_witness :
    test_batch[0]? = some ((0.0014 : ℚ), (31.25 : ℚ), (10 : ℚ), (34 : ℚ)) ∧
    (update_terminal_velocity rho_linear test_batch).length = test_batch.length :=
  ⟨rfl, (c1_regime_select rho_linear test_batch 0 0.0014 31.25 10 34 rfl).1⟩

/-- C2 (amended): a particle whose ambient salinity equals its
neutral-buoyancy salinity under the density function (`dr = 0`) gets
terminal velocity exactly 0 — because the low-Re value is 0 and the
Reynolds flag is then false, so the low-Re branch is selected.  The
hypothesis `my_w ≠ 0` (true for every physical temperature/salinity)
excludes the IEEE corner `inf * 0 = nan` that the exact-arithmetic
embedding would otherwise silently smooth over. -/
theorem c2_zero_density_contrast (ρ : ℚ → ℚ → ℚ) (d Segg T0 S0 : ℚ)
    (hdr : ρ T0 S0 = ρ T0 Segg) (hmu : my_w_low T0 S0 ≠ 0) :
    terminal_velocity ρ d Segg T0 S0 = some 0 := by
  have hdr0 : ρ T0 S0 - ρ T0 Segg = 0 := sub_eq_zero.mpr hdr
  have hW : W_low T0 S0 d (ρ T0 S0 - ρ T0 Segg) = 0 := by
    rw [hdr0, W_low, mul_zero]
  have hflag : highRe T0 S0 d (ρ T0 S0 - ρ T0 Segg) = false := by
    rw [highRe, hW]
    norm_num
  simp only [terminal_velocity, hflag, Bool.false_eq_true, if_false, hW]
  norm_num

/-- Witness for C2 (amended): the default egg at its neutral-buoyancy
salinity. -/
theorem c2_zero_density_contrast_witness :
    rho_linear 10 31.25 = rho_linear 10 31.25 ∧
    terminal_velocity rho_linear 0.0014 31.25 10 31.25 = some 0 :=
  ⟨rfl, c2_zero_density_contrast rho_linear 0.0014 31.25 10 31.25 rfl
    (by norm_num [my_w_low])⟩

/-- Counterexample to C2 as stated: at `dr = 0` the high-Re regime
formula does not yield 0 by direct substitution — its `DENSw/dr`
division blows up and the expression is NaN (`none`), never `some 0`.
The final output is 0 only because the low-Re branch is selected. -/
theorem c2_highRe_nan_at_zero_dr :
    rho_linear 10 31.25 - rho_linear 10 31.25 = 0 ∧
    0 < rho_linear 10 31.25 ∧
    W2 10 (rho_linear 10 31.25) (rho_linear 10 31.25 - rho_linear 10 31.25) 0.0014 = none ∧
    W2 10 (rho_linear 10 31.25) (rho_linear 10 31.25 - rho_linear 10 31.25) 0.0014
      ≠ some 0 := by
  have h0 : rho_linear 10 31.25 - rho_linear 10 31.25 = 0 := sub_self _
  have hnone :
      W2 10 (rho_linear 10 31.25) (rho_linear 10 31.25 - rho_linear 10 31.25) 0.0014
        = none := by
    rw [h0, W2]
    simp
  exact ⟨h0, by norm_num [rho_linear], hnone, by rw [hnone]; simp⟩

/-- C4 (amended): a NaN diameter or salinity input yields a NaN output
for that particle, no exception is raised (the computation is a total
function), and each particle's output is determined by its own entry
alone, so an invalid particle cannot disturb the rest of the batch. -/
theorem c4_nan_isolation (ρ : ℚ → ℚ → ℚ)
    (ps : List (Option ℚ × Option ℚ × Option ℚ × Option ℚ))
    (i : ℕ) (p : Option ℚ × Option ℚ × Option ℚ × Option ℚ) (h : ps[i]? = some p) :
    (update_terminal_velocity_nan ρ ps).length = ps.length ∧
    (update_terminal_velocity_nan ρ ps)[i]? = some (terminal_velocity_nan ρ p) ∧
    (p.1 = none ∨ p.2.1 = none ∨ p.2.2.1 = none ∨ p.2.2.2 = none →
      terminal_velocity_nan ρ p = none) := by
  refine ⟨by simp [update_terminal_velocity_nan], ?_, ?_⟩
  · rw [update_terminal_velocity_nan, List.getElem?_map, h, Option.map_some']
  · obtain ⟨a, b, c, e⟩ := p
    intro h1
    cases a <;> cases b <;> cases c <;> cases e <;> simp_all [terminal_velocity_nan]

/-- Witness for C4 (amended): a batch whose only particle has NaN
diameter. -/
theorem c4_nan_isolation_witness :
    test_batch_nan[0]? = some test_particle_nan ∧
    terminal_velocity_nan rho_linear test_particle_nan = none :=
  ⟨by simp [test_batch_nan],
    (c4_nan_isolation rho_linear test_batch_nan 0 test_particle_nan
      (by simp [test_batch_nan])).2.2 (Or.inl rfl)⟩

/-- Counterexample to C4 as stated: a negative diameter is an "invalid"
input per the claim, yet the code squares it in the low-Re formula and
leaves the particle unflagged, producing an ordinary finite velocity —
not NaN. -/
theorem c4_negative_diameter_not_nan :
    ((-0.0014 : ℚ) < 0) ∧
    terminal_velocity_nan rho_linear (some (-0.0014), some 31.25, some 10, some 34)
      ≠ none := by
  refine ⟨by norm_num, ?_⟩
  have hfl : highRe 10 34 (-0.0014) (rho_linear 10 34 - rho_linear 10 31.25) = false := by
    rw [highRe]
    norm_num [W_low, my_w_low, rho_linear]
  show terminal_velocity rho_linear (-0.0014) 31.25 10 34 ≠ none
  simp only [terminal_velocity, hfl, Bool.false_eq_true, if_false]
  simp

end Phyto

namespace Phyto

/-- C6: for a particle with nonpositive density contrast, positive
diameter and positive low-Re viscosity, `W_low` has the sign of `dr`,
so the Reynolds check `W_low*1000*d/my_w > 0.5` is false and the
particle is never flagged; the NaN that the high-Re expressions produce
for `dr ≤ 0` is computed but never written into the output, which is
the low-Re value. -/
theorem c6_nonpositive_dr_never_flagged (ρ : ℚ → ℚ → ℚ) (d Segg T0 S0 : ℚ)
    (hd : 0 < d) (hmu : 0 < my_w_low T0 S0) (hdr : ρ T0 S0 - ρ T0 Segg ≤ 0) :
    highRe T0 S0 d (ρ T0 S0 - ρ T0 Segg) = false ∧
    W2 T0 (ρ T0 S0) (ρ T0 S0 - ρ T0 Segg) d = none ∧
    terminal_velocity ρ d Segg T0 S0 =
      some ((W_low T0 S0 d (ρ T0 S0 - ρ T0 Segg) : ℚ) : ℝ) := by
  have hc : 0 < (1 / my_w_low T0 S0) * (1 / 18) * (9.81 : ℚ) * d ^ 2 :=
    mul_pos (mul_pos (mul_pos (one_div_pos.mpr hmu) (by norm_num)) (by norm_num))
      (pow_pos hd 2)
  have hW : W_low T0 S0 d (ρ T0 S0 - ρ T0 Segg) ≤ 0 := by
    rw [W_low]
    nlinarith [hc, hdr]
  have hprod : W_low T0 S0 d (ρ T0 S0 - ρ T0 Segg) * 1000 * d ≤ 0 := by
    nlinarith [hW, hd]
  have hcond :
      ¬ (W_low T0 S0 d (ρ T0 S0 - ρ T0 Segg) * 1000 * d / my_w_low T0 S0 > 0.5) := by
    intro hgt
    have h2 := (lt_div_iff hmu).mp hgt
    have h3 : (0 : ℚ) < 0.5 * my_w_low T0 S0 := mul_pos (by norm_num) hmu
    linarith
  have hflag : highRe T0 S0 d (ρ T0 S0 - ρ T0 Segg) = false := by
    rw [highRe]
    exact decide_eq_false hcond
  refine ⟨hflag, ?_, ?_⟩
  · rw [W2, if_neg]
    rintro ⟨h1, _⟩
    exact absurd h1 (not_lt.mpr hdr)
  · simp only [terminal_velocity, hflag, Bool.false_eq_true, if_false]

/-- Witness for C6: an egg denser than the ambient water
(`Segg = 34 > S0 = 31.25` under the linear density stub, so `dr < 0`). -/
theorem c6_nonpositive_dr_never_flagged_witness :
    (0 : ℚ) < 0.0014 ∧
    highRe 10 31.25 0.0014 (rho_linear 10 31.25 - rho_linear 10 34) = false :=
  ⟨by norm_num,
    (c6_nonpositive_dr_never_flagged rho_linear 0.0014 34 10 31.25 (by norm_num)
      (by norm_num [my_w_low]) (by norm_num [rho_linear])).1⟩

/-- C8 (amended): with temperature, salinity and a nonzero density
contrast held fixed, and the low-Re viscosity nonzero (true for all
physical temperature/salinity pairs), `|W_low|` is strictly increasing
in the diameter over positive diameters — the quadratic dependence of
the claim. -/
theorem c8_W_low_strictly_monotone_in_diameter (T S dr d1 d2 : ℚ)
    (hdr : dr ≠ 0) (hmu : my_w_low T S ≠ 0) (h1 : 0 < d1) (h12 : d1 < d2) :
    |W_low T S d1 dr| < |W_low T S d2 dr| := by
  have hc : (1 / my_w_low T S) * (1 / 18) * (9.81 : ℚ) * dr ≠ 0 :=
    mul_ne_zero (mul_ne_zero (mul_ne_zero (one_div_ne_zero hmu) (by norm_num))
      (by norm_num)) hdr
  have key : ∀ d : ℚ, W_low T S d dr = ((1 / my_w_low T S) * (1 / 18) * 9.81 * dr) * d ^ 2 := by
    intro d
    rw [W_low]
    ring
  have hsq : d1 ^ 2 < d2 ^ 2 := by nlinarith
  have habs : ∀ d : ℚ,
      |W_low T S d dr| = |(1 / my_w_low T S) * (1 / 18) * 9.81 * dr| * d ^ 2 := by
    intro d
    rw [key d, abs_mul, abs_of_nonneg (sq_nonneg d)]
  rw [habs d1, habs d2]
  exact mul_lt_mul_of_pos_left hsq (abs_pos.mpr hc)

/-- Witness for C8 at a physical temperature/salinity pair. -/
theorem c8_W_low_strictly_monotone_in_diameter_witness :
    (1 : ℚ) ≠ 0 ∧ |W_low 10 34 0.001 1| < |W_low 10 34 0.002 1| :=
  ⟨by norm_num,
    c8_W_low_strictly_monotone_in_diameter 10 34 1 0.001 0.002 (by norm_num)
      (by norm_num [my_w_low]) (by norm_num) (by norm_num)⟩

/-- Counterexample to C8 as stated: the claim quantifies over every
fixed ambient temperature and salinity, but at `T = 0`,
`S = 17915/23 ≈ 778.9` the viscosity polynomial vanishes exactly, and
the low-Re magnitude is then constant in the diameter (numpy evaluates
`1/0 = inf` and compares `inf` with `inf`; the exact embedding's
`1/0 = 0` convention makes the same comparison `0 < 0` — non-strict
either way), so strict monotonicity fails while `dr = 1 ≠ 0`. -/
theorem c8_zero_viscosity_not_monotone :
    my_w_low 0 (17915 / 23) = 0 ∧ (1 : ℚ) ≠ 0 ∧ (0 : ℚ) < 1 ∧ (1 : ℚ) < 2 ∧
    ¬ (|W_low 0 (17915 / 23) 1 1| < |W_low 0 (17915 / 23) 2 1|) := by
  refine ⟨by norm_num [my_w_low], by norm_num, by norm_num, by norm_num, ?_⟩
  norm_num [W_low, my_w_low]

end Phyto
